import Mathlib

/-!
Verification of the batch line-execution process pool and the evaluation-run
client of the promptflow repository.

The pool implementation module (promptflow.executor._line_execution_process_pool)
is exercised by its unit tests
(src/src/promptflow/tests/executor/unittests/processpool/test_line_execution_process_pool.py)
but the module itself is not part of the source tree here, so the pool is
modelled from the specification (and the exact log / error strings asserted by
those unit tests).  The evaluation-run client
(src/src/promptflow-evals/promptflow/evals/evaluate/_eval_run.py) and the
executor-proxy teardown
(src/src/promptflow/promptflow/batch/_csharp_executor_proxy.py) are embedded
directly from the source.
-/

/-- Modelled from the spec: the per-line status enum of a LineResult
(`status: enum{Completed, Failed, Timeout}`); the implementation module
promptflow.executor._line_execution_process_pool is not under src/.
The unit tests observe timed-out lines as `Status.Failed`. -/
inductive Status where
  | Completed
  | Failed
  | Timeout
deriving DecidableEq, Repr

/-- Modelled from the spec: the structured error payload `{message, code}`
carried by a failed LineResult. -/
structure ErrorInfo where
  message : String
  code : String
deriving DecidableEq, Repr

/-- Modelled from the spec: `LineResult = (index, status, output, error)`;
the `duration` field is not needed by any claim and is omitted. -/
structure LineResult where
  index : Nat
  status : Status
  output : Option String
  error : Option ErrorInfo
deriving DecidableEq, Repr

/-- Modelled from the spec: the behaviour of the flow interpreter on one line,
consumed by the pool as an opaque callable.  A line either returns normally
after `duration` seconds of work, or raises a user-classified error after
`duration` seconds.  (System-classified errors terminate the worker and are
outside the claims settled here.) -/
inductive LineBehavior where
  | works (duration : Nat) (output : String)
  | userError (duration : Nat) (message : String)
deriving DecidableEq, Repr

/-- How long the interpreter runs on the line before returning or raising. -/
def LineBehavior.duration : LineBehavior → Nat
  | .works d _ => d
  | .userError d _ => d

/-- Modelled from the spec: the structured exception surfaced by `run()` on a
run-fatal error, carrying message, target and error codes as asserted by
test_process_pool_run_with_exception. -/
structure PFError where
  message : String
  target : String
  error_codes : List String
deriving DecidableEq, Repr

/-- Modelled from the spec: a task handed to the pool.  `line b` is an ordinary
(index, inputs) task whose interpreter behaviour is `b`; `fault e` marks a task
on which a controller-side exception `e` is raised outside the per-line
isolation boundary (e.g. from a patched `_timeout_process_wrapper`). -/
inductive TaskSpec where
  | line (behavior : LineBehavior)
  | fault (e : PFError)
deriving DecidableEq, Repr

/-- Modelled from the spec: the error synthesized by the timeout supervisor,
`{message: "Line {index} execution timeout for exceeding {seconds} seconds",
code: "UserError"}`. -/
def line_timeout_error (index : Nat) (seconds : Nat) : ErrorInfo :=
  { message := "Line " ++ toString index ++ " execution timeout for exceeding "
      ++ toString seconds ++ " seconds",
    code := "UserError" }

/-- Modelled from the spec: worker-side execution of one line under the
timeout supervisor.  If the line's work exceeds `line_timeout_sec`, the line is
reported Failed with the synthesized timeout error; a normal return is wrapped
as Completed; a user-classified error is wrapped as Failed with the error's
message and code "UserError". -/
def _exec_line (line_timeout_sec : Nat) (index : Nat) (b : LineBehavior) : LineResult :=
  if line_timeout_sec < b.duration then
    { index := index, status := Status.Failed, output := none,
      error := some (line_timeout_error index line_timeout_sec) }
  else
    match b with
    | LineBehavior.works _ out =>
        { index := index, status := Status.Completed, output := some out, error := none }
    | LineBehavior.userError _ msg =>
        { index := index, status := Status.Failed, output := none,
          error := some { message := msg, code := "UserError" } }

/-- Results are ordered by ascending original line index. -/
def leByIndex (a b : LineResult) : Prop := a.index ≤ b.index

instance : DecidableRel leByIndex := fun a b => inferInstanceAs (Decidable (a.index ≤ b.index))

instance : IsTotal LineResult leByIndex := ⟨fun a b => Nat.le_total a.index b.index⟩

instance : IsTrans LineResult leByIndex := ⟨fun _ _ _ => Nat.le_trans⟩

/-- Modelled from the spec: the controller loop of `run`.  One result is
collected per submitted task; a controller-side fault aborts the whole run
with that exception, discarding every result collected so far. -/
def collect_results (line_timeout_sec : Nat) : List (Nat × TaskSpec) → Except PFError (List LineResult)
  | [] => Except.ok []
  | t :: rest =>
    match t.2 with
    | TaskSpec.fault e => Except.error e
    | TaskSpec.line b =>
      match collect_results line_timeout_sec rest with
      | Except.error e => Except.error e
      | Except.ok rs => Except.ok (_exec_line line_timeout_sec t.1 b :: rs)

/-- Modelled from the spec: `run(tasks)` feeds every task to the workers,
blocks until one LineResult per task has been observed, and returns the
results sorted by original index; a run-fatal exception is re-raised and no
partial results are returned. -/
def pool_run (line_timeout_sec : Nat) (tasks : List (Nat × TaskSpec)) :
    Except PFError (List LineResult) :=
  match collect_results line_timeout_sec tasks with
  | Except.error e => Except.error e
  | Except.ok rs => Except.ok (List.insertionSort leByIndex rs)

/-- A task list in which every task is an ordinary line task with the given
interpreter behaviour. -/
def as_line_tasks (jobs : List (Nat × LineBehavior)) : List (Nat × TaskSpec) :=
  jobs.map fun t => (t.1, TaskSpec.line t.2)

/-- A worker OS process as seen by the teardown code: whether it is still
running, and whether it will exit within the grace period once signaled to
terminate. -/
structure WorkerProcess where
  alive : Bool
  exits_within_grace : Bool
deriving DecidableEq, Repr

/-- The actions the teardown code can take on one process. -/
inductive TeardownStep where
  | terminate
  | wait
  | kill
deriving DecidableEq, Repr

/-- Termination of one process, following CSharpExecutorProxy.destroy
(src/src/promptflow/promptflow/batch/_csharp_executor_proxy.py): if the
process is still running (`poll() is None`), signal terminate, wait up to the
grace period, and kill it if the wait times out.  Returns the process state
after teardown together with the actions taken. -/
def destroy_worker (p : WorkerProcess) : WorkerProcess × List TeardownStep :=
  if p.alive then
    if p.exits_within_grace then
      ({ alive := false, exits_within_grace := p.exits_within_grace },
       [TeardownStep.terminate, TeardownStep.wait])
    else
      ({ alive := false, exits_within_grace := p.exits_within_grace },
       [TeardownStep.terminate, TeardownStep.wait, TeardownStep.kill])
  else (p, [])

/-- Modelled from the spec: the pool's active scope.  `run` executes on the
given tasks and, whatever its outcome (normal return or a re-raised
exception), every worker is torn down via `destroy_worker` on scope exit. -/
def pool_scope_run (line_timeout_sec : Nat) (workers : List WorkerProcess)
    (tasks : List (Nat × TaskSpec)) :
    Except PFError (List LineResult) × List (WorkerProcess × List TeardownStep) :=
  (pool_run line_timeout_sec tasks, workers.map destroy_worker)

/-- Modelled from the spec: the memory-based worker-count estimator
`get_available_max_worker_count`.  It computes
floor(available_memory_mb / process_memory_mb), floored at minimum 1; the
second component records whether the low-memory warning was emitted. -/
def get_available_max_worker_count (available_memory_mb process_memory_mb : ℚ) :
    Nat × Bool :=
  let estimated : ℤ := ⌊available_memory_mb / process_memory_mb⌋
  if estimated < 1 then (1, true) else (estimated.toNat, false)

/-- Modelled from the spec: the pool's worker-count decision.  With an
explicit override (PF_WORKER_COUNT) the override is used directly, with a
warning (second component) when it exceeds the memory-based estimate;
otherwise the count is the minimum of the default worker count, the row
count and the memory-based estimate. -/
def determine_n_process (override : Option Nat)
    (default_worker_count row_count estimated : Nat) : Nat × Bool :=
  match override with
  | some n => (n, decide (estimated < n))
  | none => (min default_worker_count (min row_count estimated), false)

/-- Modelled from the spec: process-creation-method selection
(PF_BATCH_METHOD).  A configured method is validated against the platform's
supported set; an unsupported method falls back to the platform default with
a warning naming the method and the supported set; no configured method means
the platform default is used directly.  The second component is the warning
logged, if any. -/
def select_start_method (preferred : Option String) (supported : List String)
    (platform_default : String) : String × Option String :=
  match preferred with
  | none => (platform_default, none)
  | some m =>
    if m ∈ supported then (m, none)
    else (platform_default,
      some ("Failed to set start method to " ++ m ++ ", start method " ++ m
        ++ " is not in: " ++ String.intercalate ", " supported ++ "."))

namespace EvalRun

/-- Severity of a log record emitted through the module logger. -/
inductive LogLevel where
  | error
  | warning
  | info
deriving DecidableEq, Repr

/-- One record emitted through the module logger. -/
structure LogRecord where
  level : LogLevel
  message : String
deriving DecidableEq, Repr

/-- An HTTP response as observed by EvalRun: status code and body text. -/
structure HttpResponse where
  status_code : Nat
  text : String
deriving DecidableEq, Repr

/-- The mutable state of an EvalRun instance relevant to its control flow:
the `_is_broken` flag set by `_start_run`, the `_is_terminated` flag, and
whether the class is still registered in the `Singleton._instances` map. -/
structure State where
  is_broken : Bool
  is_terminated : Bool
  singleton_registered : Bool
deriving DecidableEq, Repr

/-- EvalRun.__init__ / EvalRun._start_run
(src/src/promptflow-evals/promptflow/evals/evaluate/_eval_run.py): the run is
marked broken exactly when the create-run request returns a non-200 status;
`_is_terminated` starts False and the singleton metaclass has registered the
instance. -/
def init (create_status : Nat) : State :=
  { is_broken := create_status != 200,
    is_terminated := false,
    singleton_registered := true }

/-- EvalRun._log_error: the error record logged when a request was not
successful, built from the operation name and the response. -/
def _log_error (failed_op : String) (r : HttpResponse) : LogRecord :=
  { level := LogLevel.error,
    message := "Unable to " ++ failed_op ++ ", the request failed with status code "
      ++ toString r.status_code ++ ", " ++ r.text ++ "." }

/-- EvalRun.log_artifact: on a broken run, log an error and return before any
request; otherwise send the allocation request (on non-200, log via
`_log_error` and stop), then upload one blob per file.  The second component
counts network requests sent (allocation plus blob uploads). -/
def log_artifact (s : State) (n_files : Nat) (alloc_response : HttpResponse) :
    State × Nat × List LogRecord :=
  if s.is_broken then
    (s, 0, [{ level := LogLevel.error,
              message := "Unable to log artifact because the run failed to start." }])
  else if alloc_response.status_code != 200 then
    (s, 1, [_log_error "allocate Blob for the artifact" alloc_response])
  else
    (s, 1 + n_files, [])

/-- EvalRun.log_metric: on a broken run, log an error and return before any
request; otherwise send the log-metric request and log via `_log_error` when
it does not return 200. -/
def log_metric (s : State) (response : HttpResponse) : State × Nat × List LogRecord :=
  if s.is_broken then
    (s, 0, [{ level := LogLevel.error,
              message := "Unable to log metric because the run failed to start." }])
  else if response.status_code != 200 then
    (s, 1, [_log_error "save metrics" response])
  else
    (s, 1, [])

/-- EvalRun.end_run: first the terminal status is validated (a ValueError is
raised on an invalid status, modelled as `Except.error`), then an
already-terminated run logs a warning and returns, then a broken run logs an
error and returns; otherwise the update request is sent, a non-200 response is
logged, the singleton registration is destroyed and `_is_terminated` is set. -/
def end_run (s : State) (status : String) (response : HttpResponse) :
    Except String (State × Nat × List LogRecord) :=
  if ¬ (status = "FINISHED" ∨ status = "FAILED" ∨ status = "KILLED") then
    Except.error ("Incorrect terminal status " ++ status
      ++ ". Valid statuses are \"FINISHED\", \"FAILED\" and \"KILLED\".")
  else if s.is_terminated then
    Except.ok (s, 0, [{ level := LogLevel.warning,
                        message := "Unable to stop run because it was already terminated." }])
  else if s.is_broken then
    Except.ok (s, 0, [{ level := LogLevel.error,
                        message := "Unable to stop run because the run failed to start." }])
  else
    Except.ok ({ s with singleton_registered := false, is_terminated := true }, 1,
      if response.status_code != 200 then
        [{ level := LogLevel.error, message := "Unable to terminate the run." }]
      else [])

end EvalRun

/-! Helper lemmas about the pool model. -/

theorem exec_line_index (t i : Nat) (b : LineBehavior) : (_exec_line t i b).index = i := by
  unfold _exec_line
  split
  · rfl
  · cases b <;> rfl

theorem collect_results_as_line_tasks (t : Nat) (jobs : List (Nat × LineBehavior)) :
    collect_results t (as_line_tasks jobs)
      = Except.ok (jobs.map fun j => _exec_line t j.1 j.2) := by
  induction jobs with
  | nil => rfl
  | cons j rest ih =>
    simp only [as_line_tasks, List.map_cons] at ih ⊢
    simp [collect_results, ih]

theorem pool_run_as_line_tasks (t : Nat) (jobs : List (Nat × LineBehavior)) :
    pool_run t (as_line_tasks jobs)
      = Except.ok (List.insertionSort leByIndex (jobs.map fun j => _exec_line t j.1 j.2)) := by
  simp [pool_run, collect_results_as_line_tasks]

theorem collect_results_fault (t i : Nat) (e : PFError)
    (pre : List (Nat × LineBehavior)) (rest : List (Nat × TaskSpec)) :
    collect_results t (as_line_tasks pre ++ (i, TaskSpec.fault e) :: rest)
      = Except.error e := by
  induction pre with
  | nil => rfl
  | cons j ps ih =>
    simp only [as_line_tasks, List.map_cons, List.cons_append] at ih ⊢
    simp [collect_results, ih]

theorem exec_line_mem_run (t : Nat) (jobs : List (Nat × LineBehavior)) (i : Nat)
    (b : LineBehavior) (h : (i, b) ∈ jobs) :
    _exec_line t i b ∈ List.insertionSort leByIndex (jobs.map fun j => _exec_line t j.1 j.2) := by
  rw [List.mem_insertionSort]
  exact List.mem_map_of_mem _ h

theorem destroy_worker_not_alive (p : WorkerProcess) : (destroy_worker p).1.alive = false := by
  rcases p with ⟨a, g⟩
  cases a <;> cases g <;> rfl

/-! The claims. -/

/-- C1: for every `run(tasks)` on an active pool, where `tasks` contains N
(index, inputs) pairs with distinct indices, the returned sequence contains
exactly N LineResults, one per distinct submitted index, even if some lines
fail or time out. -/
theorem run_returns_one_result_per_index (t : Nat) (jobs : List (Nat × LineBehavior))
    (hnd : (jobs.map Prod.fst).Nodup) :
    ∃ rs, pool_run t (as_line_tasks jobs) = Except.ok rs ∧
      rs.length = jobs.length ∧
      ∀ i ∈ jobs.map Prod.fst, (rs.map LineResult.index).count i = 1 := by
  refine ⟨_, pool_run_as_line_tasks t jobs, ?_, ?_⟩
  · rw [List.length_insertionSort, List.length_map]
  · intro i hi
    have hmapidx : (jobs.map fun j => _exec_line t j.1 j.2).map LineResult.index
        = jobs.map Prod.fst := by
      rw [List.map_map]
      exact List.map_congr_left fun j _ => exec_line_index t j.1 j.2
    have hperm : List.Perm
        ((List.insertionSort leByIndex
          (jobs.map fun j => _exec_line t j.1 j.2)).map LineResult.index)
        (jobs.map Prod.fst) := by
      rw [← hmapidx]
      exact (List.perm_insertionSort leByIndex _).map LineResult.index
    rw [List.perm_iff_count.mp hperm i]
    exact List.count_eq_one_of_mem hnd hi

/-- C2: the sequence of LineResults that `run` returns is sorted by ascending
original line index, regardless of the order in which the workers completed
the lines (`arrived` is the completion order, any permutation of the
submitted jobs). -/
theorem run_results_sorted_by_index (t : Nat) (jobs arrived : List (Nat × LineBehavior))
    (hperm : arrived.Perm jobs) :
    ∃ rs, pool_run t (as_line_tasks arrived) = Except.ok rs ∧
      List.Sorted leByIndex rs ∧
      rs.Perm (jobs.map fun j => _exec_line t j.1 j.2) := by
  refine ⟨_, pool_run_as_line_tasks t arrived, ?_, ?_⟩
  · exact List.sorted_insertionSort leByIndex _
  · exact (List.perm_insertionSort leByIndex _).trans
      (hperm.map fun j => _exec_line t j.1 j.2)

/-- C3: a line whose execution exceeds the configured timeout of `t` seconds
gets a LineResult with status Failed, error code "UserError" and message
exactly "Line {index} execution timeout for exceeding {t} seconds", while a
sibling line whose work finishes within the timeout completes normally in the
same run. -/
theorem timeout_line_failed_with_message (t : Nat) (jobs : List (Nat × LineBehavior))
    (i : Nat) (b : LineBehavior) (hmem : (i, b) ∈ jobs) (hexceed : t < b.duration) :
    ∃ rs, pool_run t (as_line_tasks jobs) = Except.ok rs ∧
      (∃ r ∈ rs, r.index = i ∧ r.status = Status.Failed ∧
        r.error = some (ErrorInfo.mk ("Line " ++ toString i
            ++ " execution timeout for exceeding " ++ toString t ++ " seconds")
          "UserError")) ∧
      ∀ j d out, (j, LineBehavior.works d out) ∈ jobs → d ≤ t →
        ∃ r ∈ rs, r.index = j ∧ r.status = Status.Completed := by
  refine ⟨_, pool_run_as_line_tasks t jobs, ?_, ?_⟩
  · refine ⟨_exec_line t i b, exec_line_mem_run t jobs i b hmem, ?_⟩
    simp [_exec_line, hexceed, line_timeout_error]
  · intro j d out hj hd
    refine ⟨_exec_line t j (LineBehavior.works d out),
      exec_line_mem_run t jobs j _ hj, ?_⟩
    simp [_exec_line, LineBehavior.duration, Nat.not_lt.mpr hd]

/-- C4: a line on which the interpreter raises a user-classified error gets a
LineResult (from `_exec_line`) with status Failed carrying that error's
message and code "UserError"; the worker continues (a result is still
produced for every task) and `run()` returns normally instead of raising. -/
theorem user_error_isolated_to_line (t d : Nat) (msg : String)
    (jobs : List (Nat × LineBehavior)) (i : Nat)
    (hmem : (i, LineBehavior.userError d msg) ∈ jobs) (hd : d ≤ t) :
    _exec_line t i (LineBehavior.userError d msg)
      = { index := i, status := Status.Failed, output := none,
          error := some { message := msg, code := "UserError" } } ∧
    ∃ rs, pool_run t (as_line_tasks jobs) = Except.ok rs ∧
      rs.length = jobs.length ∧
      ∃ r ∈ rs, r.index = i ∧ r.status = Status.Failed ∧
        r.error = some { message := msg, code := "UserError" } := by
  have hexec : _exec_line t i (LineBehavior.userError d msg)
      = { index := i, status := Status.Failed, output := none,
          error := some { message := msg, code := "UserError" } } := by
    simp [_exec_line, LineBehavior.duration, Nat.not_lt.mpr hd]
  refine ⟨hexec, _, pool_run_as_line_tasks t jobs, ?_, ?_⟩
  · rw [List.length_insertionSort, List.length_map]
  · exact ⟨_, exec_line_mem_run t jobs i _ hmem, by rw [hexec]; exact ⟨rfl, rfl, rfl⟩⟩

/-- C5: an exception raised outside the per-line isolation boundary (a
controller-side fault) is re-raised by `run()` with the same message, target
and error codes, no partial results are returned, and every worker is torn
down on that exit path. -/
theorem run_fatal_error_reraised (t : Nat) (workers : List WorkerProcess)
    (pre : List (Nat × LineBehavior)) (i : Nat) (e : PFError)
    (rest : List (Nat × TaskSpec)) :
    (pool_scope_run t workers (as_line_tasks pre ++ (i, TaskSpec.fault e) :: rest)).1
      = Except.error (PFError.mk e.message e.target e.error_codes) ∧
    ∀ pr ∈ (pool_scope_run t workers (as_line_tasks pre ++ (i, TaskSpec.fault e) :: rest)).2,
      pr.1.alive = false := by
  constructor
  · show pool_run t _ = _
    simp [pool_run, collect_results_fault]
  · intro pr hpr
    rcases List.mem_map.mp hpr with ⟨w, _, hw⟩
    rw [← hw]
    exact destroy_worker_not_alive w

/-- C6: with no worker-count override, the effective worker count is
min(default_worker_count, row_count, memory_based), where memory_based is
floor(available_memory_mb / per_process_memory_mb) floored at minimum 1 with
a warning exactly when available memory is below the per-process memory; in
particular the estimator returns 2 for 128MB vs 64MB, and 1 with a warning
for 63MB vs 64MB. -/
theorem worker_count_auto_sizing (default_wc rows : Nat) (avail proc : ℚ) (hp : 0 < proc) :
    (determine_n_process none default_wc rows (get_available_max_worker_count avail proc).1).1
      = min default_wc (min rows (get_available_max_worker_count avail proc).1) ∧
    (get_available_max_worker_count avail proc).1 = max 1 (⌊avail / proc⌋).toNat ∧
    ((get_available_max_worker_count avail proc).2 = true ↔ avail < proc) ∧
    get_available_max_worker_count 128 64 = (2, false) ∧
    get_available_max_worker_count 63 64 = (1, true) := by
  have hfloor : (⌊avail / proc⌋ < 1) ↔ avail < proc := by
    rw [Int.floor_lt]
    push_cast
    exact div_lt_one hp
  refine ⟨rfl, ?_, ?_, ?_, ?_⟩
  · unfold get_available_max_worker_count
    by_cases h : ⌊avail / proc⌋ < 1 <;> simp [h] <;> omega
  · unfold get_available_max_worker_count
    rw [← hfloor]
    by_cases h : ⌊avail / proc⌋ < 1 <;> simp [h]
  · have h128 : ⌊(128 : ℚ) / 64⌋ = 2 := by
      rw [(by norm_num : (128 : ℚ) / 64 = ((2 : ℤ) : ℚ)), Int.floor_intCast]
    norm_num [get_available_max_worker_count, h128]
    rfl
  · have h63 : ⌊(63 : ℚ) / 64⌋ = 0 := by
      rw [Int.floor_eq_zero_iff]
      constructor <;> norm_num
    norm_num [get_available_max_worker_count, h63]

/-- C7: with an explicit worker-count override (PF_WORKER_COUNT), the pool's
effective worker count equals the override exactly, and the
memory-exhaustion warning is emitted precisely when the override exceeds the
memory-based estimate. -/
theorem worker_count_override_exact (n default_wc rows est : Nat) :
    (determine_n_process (some n) default_wc rows est).1 = n ∧
    ((determine_n_process (some n) default_wc rows est).2 = true ↔ est < n) :=
  ⟨rfl, by simp [determine_n_process]⟩

/-- C8: an unsupported configured start method (PF_BATCH_METHOD) produces a
warning naming the method and the supported set and falls back to the
platform default; a supported configured method is honored exactly; no
configured method means the platform default is used directly. -/
theorem start_method_selection (m platform_default : String) (supported : List String) :
    (m ∉ supported →
      select_start_method (some m) supported platform_default
        = (platform_default,
           some ("Failed to set start method to " ++ m ++ ", start method " ++ m
             ++ " is not in: " ++ String.intercalate ", " supported ++ "."))) ∧
    (m ∈ supported →
      select_start_method (some m) supported platform_default = (m, none)) ∧
    select_start_method none supported platform_default = (platform_default, none) := by
  refine ⟨fun h => ?_, fun h => ?_, rfl⟩ <;> simp [select_start_method, h]

/-- C9: on every exit path from the pool's active scope (any task list,
including ones whose run raises), every worker is torn down: it is no longer
alive afterwards; a live worker is signaled to terminate and given the grace
period, and is forcibly killed exactly when it does not exit within the
grace period. -/
theorem teardown_on_every_exit_path (t : Nat) (workers : List WorkerProcess)
    (tasks : List (Nat × TaskSpec)) (w : WorkerProcess) (hw : w ∈ workers) :
    ∃ pr ∈ (pool_scope_run t workers tasks).2,
      pr.1.alive = false ∧
      (w.alive = true → TeardownStep.terminate ∈ pr.2 ∧ TeardownStep.wait ∈ pr.2) ∧
      (w.alive = true → w.exits_within_grace = false → TeardownStep.kill ∈ pr.2) ∧
      (w.alive = true → w.exits_within_grace = true → TeardownStep.kill ∉ pr.2) := by
  refine ⟨destroy_worker w, List.mem_map_of_mem destroy_worker hw, ?_⟩
  rcases w with ⟨a, g⟩
  cases a <;> cases g <;> exact (by decide)

/-- C10 counterexample: on a broken run (create-run returned 500), calling
`end_run` with an invalid terminal status raises ValueError instead of
returning after logging an error, so the claim as stated fails for
`end_run`. -/
theorem end_run_invalid_status_raises_on_broken_run :
    EvalRun.end_run (EvalRun.init 500) "WRONG_STATUS" { status_code := 200, text := "" }
      = Except.error ("Incorrect terminal status WRONG_STATUS"
          ++ ". Valid statuses are \"FINISHED\", \"FAILED\" and \"KILLED\".") := by
  rfl

/-- C10 (amended): on a broken run, `log_artifact`, `log_metric`, and
`end_run` called with a valid terminal status each return immediately after
logging exactly one error, send no HTTP request, and leave the run's state
(including singleton registration and the `_is_terminated` flag)
unchanged. -/
theorem broken_run_operations_are_inert (s : EvalRun.State) (r : EvalRun.HttpResponse)
    (n_files : Nat) (status : String)
    (hb : s.is_broken = true) (ht : s.is_terminated = false)
    (hs : status = "FINISHED" ∨ status = "FAILED" ∨ status = "KILLED") :
    EvalRun.log_artifact s n_files r
      = (s, 0, [EvalRun.LogRecord.mk EvalRun.LogLevel.error
          "Unable to log artifact because the run failed to start."]) ∧
    EvalRun.log_metric s r
      = (s, 0, [EvalRun.LogRecord.mk EvalRun.LogLevel.error
          "Unable to log metric because the run failed to start."]) ∧
    EvalRun.end_run s status r
      = Except.ok (s, 0, [EvalRun.LogRecord.mk EvalRun.LogLevel.error
          "Unable to stop run because the run failed to start."]) := by
  refine ⟨?_, ?_, ?_⟩
  · simp [EvalRun.log_artifact, hb]
  · simp [EvalRun.log_metric, hb]
  · rw [EvalRun.end_run, if_neg (not_not_intro hs), if_neg (by simp [ht]),
      if_pos (by simp [hb])]

/-! Witnesses. -/

theorem run_returns_one_result_per_index_witness :
    ∃ rs, pool_run 100 (as_line_tasks
        [(0, LineBehavior.works 1 "a"), (1, LineBehavior.works 2 "b")]) = Except.ok rs ∧
      rs.length = [(0, LineBehavior.works 1 "a"), (1, LineBehavior.works 2 "b")].length ∧
      ∀ i ∈ [(0, LineBehavior.works 1 "a"), (1, LineBehavior.works 2 "b")].map Prod.fst,
        (rs.map LineResult.index).count i = 1 :=
  run_returns_one_result_per_index 100 _ (by decide)

theorem run_results_sorted_by_index_witness :
    ∃ rs, pool_run 5 (as_line_tasks
        [(1, LineBehavior.works 1 "b"), (0, LineBehavior.works 1 "a")]) = Except.ok rs ∧
      List.Sorted leByIndex rs ∧
      rs.Perm ([(0, LineBehavior.works 1 "a"), (1, LineBehavior.works 1 "b")].map
        fun j => _exec_line 5 j.1 j.2) :=
  run_results_sorted_by_index 5 _ _ (List.Perm.swap _ _ _)

theorem timeout_line_failed_with_message_witness :
    ∃ rs, pool_run 1 (as_line_tasks
        [(0, LineBehavior.works 5 "slow"), (1, LineBehavior.works 1 "fast")]) = Except.ok rs ∧
      (∃ r ∈ rs, r.index = 0 ∧ r.status = Status.Failed ∧
        r.error = some (ErrorInfo.mk ("Line " ++ toString 0
            ++ " execution timeout for exceeding " ++ toString 1 ++ " seconds")
          "UserError")) ∧
      ∀ j d out, (j, LineBehavior.works d out)
          ∈ [(0, LineBehavior.works 5 "slow"), (1, LineBehavior.works 1 "fast")] → d ≤ 1 →
        ∃ r ∈ rs, r.index = j ∧ r.status = Status.Completed :=
  timeout_line_failed_with_message 1 _ 0 (LineBehavior.works 5 "slow") (by decide) (by decide)

theorem user_error_isolated_to_line_witness :
    _exec_line 1 0 (LineBehavior.userError 0 "Test user error")
      = { index := 0, status := Status.Failed, output := none,
          error := some { message := "Test user error", code := "UserError" } } ∧
    ∃ rs, pool_run 1 (as_line_tasks
        [(0, LineBehavior.userError 0 "Test user error")]) = Except.ok rs ∧
      rs.length = [(0, LineBehavior.userError 0 "Test user error")].length ∧
      ∃ r ∈ rs, r.index = 0 ∧ r.status = Status.Failed ∧
        r.error = some { message := "Test user error", code := "UserError" } :=
  user_error_isolated_to_line 1 0 "Test user error" _ 0 (by decide) (by decide)

theorem worker_count_auto_sizing_witness :
    get_available_max_worker_count 128 64 = (2, false) ∧
    get_available_max_worker_count 63 64 = (1, true) :=
  ⟨(worker_count_auto_sizing 4 4 128 64 (by norm_num)).2.2.2.1,
   (worker_count_auto_sizing 4 4 128 64 (by norm_num)).2.2.2.2⟩

theorem start_method_selection_witness :
    select_start_method (some "test") ["fork", "spawn", "forkserver"] "fork"
      = ("fork",
         some ("Failed to set start method to " ++ "test" ++ ", start method " ++ "test"
           ++ " is not in: " ++ String.intercalate ", " ["fork", "spawn", "forkserver"] ++ ".")) :=
  (start_method_selection "test" "fork" ["fork", "spawn", "forkserver"]).1 (by decide)

theorem teardown_on_every_exit_path_witness :
    ∃ pr ∈ (pool_scope_run 1 [WorkerProcess.mk true false] []).2,
      pr.1.alive = false ∧
      ((WorkerProcess.mk true false).alive = true →
        TeardownStep.terminate ∈ pr.2 ∧ TeardownStep.wait ∈ pr.2) ∧
      ((WorkerProcess.mk true false).alive = true →
        (WorkerProcess.mk true false).exits_within_grace = false →
        TeardownStep.kill ∈ pr.2) ∧
      ((WorkerProcess.mk true false).alive = true →
        (WorkerProcess.mk true false).exits_within_grace = true →
        TeardownStep.kill ∉ pr.2) :=
  teardown_on_every_exit_path 1 _ [] _ (by decide)

theorem broken_run_operations_are_inert_witness :
    EvalRun.log_metric (EvalRun.init 500) { status_code := 200, text := "" }
      = (EvalRun.init 500, 0, [EvalRun.LogRecord.mk EvalRun.LogLevel.error
          "Unable to log metric because the run failed to start."]) :=
  (broken_run_operations_are_inert (EvalRun.init 500)
    { status_code := 200, text := "" } 3 "FINISHED" rfl rfl (Or.inl rfl)).2.1
